import Mathlib

/-!
Verification of the vAMM pricing/curve-adjustment module (the `amm` math source file
of the repository).

Modelling conventions.
* `BN` (bn.js arbitrary-precision integers) is modelled as `ℤ`.  bn.js `div`
  truncates toward zero and is modelled by `Int.tdiv`.  bn.js throws on a zero
  divisor while `Int.tdiv x 0 = 0`; every theorem below either carries
  positivity hypotheses that keep the relevant divisors nonzero, or talks about
  a path on which the divisor is structurally nonzero.
* JavaScript `number` arithmetic (the spread calculators) is modelled exactly
  over `ℚ`; IEEE-754 rounding of `number` operations is outside the model.
  `new BN(someNumber)` truncates the number toward zero (bn.js builds the limbs
  with bitwise masks), modelled by `truncBN`.
* The `assert` calls of the source are modelled by returning `none`
  (`Option`-valued functions); a computation that would throw yields `none`.
* `calculateRepegCost`, `calculateAdjustKCost` and `calculateBudgetedPeg` live in
  a different source file (`./repeg`) and are consumed as opaque external
  functions, so the functions below take them as parameters.
-/

/-- Modelled from the spec: the fixed-point precision constants come from
`../constants/numericConstants`, a module that is not part of the provided
source.  The values used are the standard scales of this code base, consistent
with the spec: a price precision, a peg precision, a quote precision, a spread
precision whose fiftieth part is called "2%" by the source comment, and the
two derived reserve/quote conversion ratios. -/
def MARK_PRICE_PRECISION : ℤ := 10 ^ 10

/-- Modelled from the spec: peg-multiplier precision (see `MARK_PRICE_PRECISION`). -/
def PEG_PRECISION : ℤ := 10 ^ 3

/-- Modelled from the spec: bid/ask spread precision; `maxTargetSpread` is this
value divided by 50, which the source comment calls 2%. -/
def BID_ASK_SPREAD_PRECISION : ℤ := 10 ^ 6

/-- Modelled from the spec: quote precision (see `MARK_PRICE_PRECISION`). -/
def QUOTE_PRECISION : ℤ := 10 ^ 6

/-- Modelled from the spec: ratio between amm reserve precision and quote precision. -/
def AMM_TO_QUOTE_PRECISION_RATIO : ℤ := 10 ^ 7

/-- Modelled from the spec: `AMM_TO_QUOTE_PRECISION_RATIO` times `PEG_PRECISION`. -/
def AMM_TIMES_PEG_TO_QUOTE_PRECISION_RATIO : ℤ := 10 ^ 10

/-- Position direction (`PositionDirection` of the source types). -/
inductive PositionDirection where
  | long
  | short
deriving DecidableEq, Repr

/-- Swap direction (`SwapDirection` of the source types). -/
inductive SwapDirection where
  | add
  | remove
deriving DecidableEq, Repr

/-- Asset type tag (`AssetType = 'quote' | 'base'` of the source). -/
inductive AssetType where
  | base
  | quote
deriving DecidableEq, Repr

/-- Oracle price data; only the `price` field is read by this module. -/
structure OraclePriceData where
  price : ℤ
deriving DecidableEq, Repr

/-- The AMM state record, restricted to the fields this module reads. -/
structure AMM where
  baseAssetReserve : ℤ
  quoteAssetReserve : ℤ
  sqrtK : ℤ
  pegMultiplier : ℤ
  netBaseAssetAmount : ℤ
  terminalQuoteAssetReserve : ℤ
  totalExchangeFee : ℤ
  totalFeeMinusDistributions : ℤ
  baseSpread : ℤ
  curveUpdateIntensity : ℤ
  quoteAssetAmountLong : ℤ
  quoteAssetAmountShort : ℤ
deriving DecidableEq, Repr

/-- Truncation of a rational toward zero: the effect of `new BN(x)` on a
JavaScript number `x` (bn.js builds the limbs with bitwise masks, which
truncate the magnitude). -/
def truncBN (q : ℚ) : ℤ :=
  Int.tdiv q.num (q.den : ℤ)

/-- Embedding of `calculatePrice`: returns 0 when `|baseAssetReserves| ≤ 0`
(that is, exactly when the base reserve is zero), otherwise
`quote * MARK_PRICE_PRECISION * peg / PEG_PRECISION / base` with bn.js
truncated division. -/
def calculatePrice (baseAssetReserves quoteAssetReserves pegMultiplier : ℤ) : ℤ :=
  if |baseAssetReserves| ≤ 0 then 0
  else
    Int.tdiv
      (Int.tdiv (quoteAssetReserves * MARK_PRICE_PRECISION * pegMultiplier) PEG_PRECISION)
      baseAssetReserves

/-- Embedding of `calculateSwapOutput`: the new input reserve is the old one
plus (ADD) or minus (REMOVE) the swap amount, and the new output reserve is
`invariant / newInputReserve` with bn.js truncated division. -/
def calculateSwapOutput (inputAssetReserve swapAmount : ℤ) (swapDirection : SwapDirection)
    (invariant : ℤ) : ℤ × ℤ :=
  let newInputAssetReserve :=
    match swapDirection with
    | SwapDirection.add => inputAssetReserve + swapAmount
    | SwapDirection.remove => inputAssetReserve - swapAmount
  (newInputAssetReserve, Int.tdiv invariant newInputAssetReserve)

/-- Embedding of `getSwapDirection`: REMOVE for (long, base) and (short, quote),
ADD otherwise. -/
def getSwapDirection (inputAssetType : AssetType) (positionDirection : PositionDirection) :
    SwapDirection :=
  match positionDirection, inputAssetType with
  | PositionDirection.long, AssetType.base => SwapDirection.remove
  | PositionDirection.short, AssetType.quote => SwapDirection.remove
  | _, _ => SwapDirection.add

/-- Round trip of the swap simulator: `calculateSwapOutput` with ADD followed by
`calculateSwapOutput` with REMOVE of the same amount against the same invariant,
starting from the first result's input reserve. -/
def swapRoundTrip (inputReserve swapAmount invariant : ℤ) : ℤ × ℤ :=
  let first := calculateSwapOutput inputReserve swapAmount SwapDirection.add invariant
  calculateSwapOutput first.1 swapAmount SwapDirection.remove invariant

/-- Embedding of `calculateAmmReservesAfterSwap`.  The source asserts
`swapAmount ≥ 0` (modelled by `none`), rescales a quote-denominated amount by
the peg, and always returns the pair (new quote reserve, new base reserve). -/
def calculateAmmReservesAfterSwap (amm : AMM) (inputAssetType : AssetType)
    (swapAmount : ℤ) (swapDirection : SwapDirection) : Option (ℤ × ℤ) :=
  if swapAmount < 0 then none
  else
    match inputAssetType with
    | AssetType.quote =>
      let scaledAmount :=
        Int.tdiv (swapAmount * AMM_TIMES_PEG_TO_QUOTE_PRECISION_RATIO) amm.pegMultiplier
      let result :=
        calculateSwapOutput amm.quoteAssetReserve scaledAmount swapDirection
          (amm.sqrtK * amm.sqrtK)
      some (result.1, result.2)
    | AssetType.base =>
      let result :=
        calculateSwapOutput amm.baseAssetReserve swapAmount swapDirection
          (amm.sqrtK * amm.sqrtK)
      some (result.2, result.1)

/-- The candidate peg of `calculateNewAmm` step 1:
`targetPrice * base / quote` rounded half-up to peg units (the source adds half
of `MARK_PRICE_PRECISION / PEG_PRECISION` before the final division). -/
def targetPegOf (amm : AMM) (targetPrice : ℤ) : ℤ :=
  Int.tdiv
    (Int.tdiv (targetPrice * amm.baseAssetReserve) amm.quoteAssetReserve
      + Int.tdiv (Int.tdiv MARK_PRICE_PRECISION PEG_PRECISION) 2)
    (Int.tdiv MARK_PRICE_PRECISION PEG_PRECISION)

/-- The repeg fee budget of `calculateNewAmm`:
`max(0, totalFeeMinusDistributions - totalExchangeFee / 2)`. -/
def repegBudgetOf (amm : AMM) : ℤ :=
  max 0 (amm.totalFeeMinusDistributions - Int.tdiv amm.totalExchangeFee 2)

/-- Embedding of `calculateNewAmm`, parameterised by the three opaque repeg
primitives (`calculateRepegCost`, `calculateAdjustKCost`,
`calculateBudgetedPeg`).  The failed `assert(deficitMadeup.lte(0))` of the
source is modelled by `none`. -/
def calculateNewAmm (calculateRepegCost : AMM → ℤ → ℤ)
    (calculateAdjustKCost : AMM → ℤ → ℤ → ℤ)
    (calculateBudgetedPeg : AMM → ℤ → ℤ → ℤ)
    (amm : AMM) (oraclePriceData : OraclePriceData) : Option (ℤ × ℤ × ℤ × ℤ) :=
  let targetPrice := oraclePriceData.price
  let newPeg := targetPegOf amm targetPrice
  let prePegCost := calculateRepegCost amm newPeg
  let budget := repegBudgetOf amm
  if budget < prePegCost then
    let pKNumer : ℤ := 999
    let pKDenom : ℤ := 1000
    let deficitMadeup := calculateAdjustKCost amm pKNumer pKDenom
    if 0 < deficitMadeup then none
    else
      let prePegCost2 := budget + |deficitMadeup|
      let newAmm1 :=
        { amm with
          baseAssetReserve := Int.tdiv (amm.baseAssetReserve * pKNumer) pKDenom
          sqrtK := Int.tdiv (amm.sqrtK * pKNumer) pKDenom }
      let invariant := newAmm1.sqrtK * newAmm1.sqrtK
      let newAmm2 :=
        { newAmm1 with quoteAssetReserve := Int.tdiv invariant newAmm1.baseAssetReserve }
      let directionToClose :=
        if 0 < amm.netBaseAssetAmount then PositionDirection.short else PositionDirection.long
      match calculateAmmReservesAfterSwap newAmm2 AssetType.base |amm.netBaseAssetAmount|
          (getSwapDirection AssetType.base directionToClose) with
      | none => none
      | some reservesAfterClose =>
        let newAmm3 := { newAmm2 with terminalQuoteAssetReserve := reservesAfterClose.1 }
        let newPeg2 := calculateBudgetedPeg newAmm3 prePegCost2 targetPrice
        let prePegCost3 := calculateRepegCost newAmm3 newPeg2
        some (prePegCost3, pKNumer, pKDenom, newPeg2)
  else some (prePegCost, 1, 1, newPeg)

/-- Embedding of `calculateUpdatedAMM`: identity for `curveUpdateIntensity = 0`;
otherwise applies the k ratio of `calculateNewAmm` to the base reserve and
`sqrtK`, reconstructs the quote reserve from the invariant, sets the new peg,
recomputes the terminal quote reserve by simulating a full close of the net
inventory, and charges the cost to `totalFeeMinusDistributions`. -/
def calculateUpdatedAMM (calculateRepegCost : AMM → ℤ → ℤ)
    (calculateAdjustKCost : AMM → ℤ → ℤ → ℤ)
    (calculateBudgetedPeg : AMM → ℤ → ℤ → ℤ)
    (amm : AMM) (oraclePriceData : OraclePriceData) : Option AMM :=
  if amm.curveUpdateIntensity = 0 then some amm
  else
    match calculateNewAmm calculateRepegCost calculateAdjustKCost calculateBudgetedPeg
        amm oraclePriceData with
    | none => none
    | some result =>
      let prepegCost := result.1
      let pKNumer := result.2.1
      let pKDenom := result.2.2.1
      let newPeg := result.2.2.2
      let newAmm1 :=
        { amm with
          baseAssetReserve := Int.tdiv (amm.baseAssetReserve * pKNumer) pKDenom
          sqrtK := Int.tdiv (amm.sqrtK * pKNumer) pKDenom }
      let invariant := newAmm1.sqrtK * newAmm1.sqrtK
      let newAmm2 :=
        { newAmm1 with
          quoteAssetReserve := Int.tdiv invariant newAmm1.baseAssetReserve
          pegMultiplier := newPeg }
      let directionToClose :=
        if 0 < amm.netBaseAssetAmount then PositionDirection.short else PositionDirection.long
      match calculateAmmReservesAfterSwap newAmm2 AssetType.base |amm.netBaseAssetAmount|
          (getSwapDirection AssetType.base directionToClose) with
      | none => none
      | some reservesAfterClose =>
        some
          { newAmm2 with
            terminalQuoteAssetReserve := reservesAfterClose.1
            totalFeeMinusDistributions := newAmm2.totalFeeMinusDistributions - prepegCost }

/-- The mark price read inside `calculateSpread`:
`calculatePrice(baseAssetReserve, quoteAssetReserve, pegMultiplier)`. -/
def markPriceOf (amm : AMM) : ℤ :=
  calculatePrice amm.baseAssetReserve amm.quoteAssetReserve amm.pegMultiplier

/-- The oracle/mark spread percentage of `calculateSpread`:
`(markPrice - targetPrice) * BID_ASK_SPREAD_PRECISION / markPrice` where the
target price is `oraclePriceData?.price || markPrice`.  A present oracle price
is a BN object and hence always truthy in JavaScript — even a zero price is
used as-is; only an absent `oraclePriceData` falls back to the mark price. -/
def targetMarkSpreadPctOf (amm : AMM) (oraclePriceData : Option OraclePriceData) : ℤ :=
  let markPrice := markPriceOf amm
  let targetPrice :=
    match oraclePriceData with
    | some d => d.price
    | none => markPrice
  Int.tdiv ((markPrice - targetPrice) * BID_ASK_SPREAD_PRECISION) markPrice

/-- `MAX_INVENTORY_SKEW` of the spread calculators. -/
def MAX_INVENTORY_SKEW : ℚ := 5

/-- `maxTargetSpread = BID_ASK_SPREAD_PRECISION / 50` (2%). -/
def maxTargetSpread : ℚ := (BID_ASK_SPREAD_PRECISION : ℚ) / 50

/-- `netBaseAssetValue` of the inventory-skew stage:
`(quoteAssetReserve - terminalQuoteAssetReserve) * pegMultiplier /
AMM_TIMES_PEG_TO_QUOTE_PRECISION_RATIO`. -/
def netBaseAssetValueOf (amm : AMM) : ℤ :=
  Int.tdiv ((amm.quoteAssetReserve - amm.terminalQuoteAssetReserve) * amm.pegMultiplier)
    AMM_TIMES_PEG_TO_QUOTE_PRECISION_RATIO

/-- `localBaseAssetValue` of the inventory-skew stage:
`netBaseAssetAmount * markPrice /
( AMM_TO_QUOTE_PRECISION_RATIO * MARK_PRICE_PRECISION)`. -/
def localBaseAssetValueOf (amm : AMM) (markPrice : ℤ) : ℤ :=
  Int.tdiv (amm.netBaseAssetAmount * markPrice)
    ( AMM_TO_QUOTE_PRECISION_RATIO * MARK_PRICE_PRECISION)

/-- `netCostBasis = quoteAssetAmountLong - quoteAssetAmountShort`. -/
def netCostBasisOf (amm : AMM) : ℤ :=
  amm.quoteAssetAmountLong - amm.quoteAssetAmountShort

/-- The half-spread of `calculateSpread` after the base-spread and
oracle-retreat steps (lines up to the "inventory skew" comment): starts from
`baseSpread / 2` and, when quoting LONG with a negative spread percentage or
SHORT with a positive one, widens to `max(spread, |targetMarkSpreadPct|)`. -/
def preSkewSpread (amm : AMM) (direction : PositionDirection)
    (oraclePriceData : Option OraclePriceData) : ℚ :=
  let spread : ℚ := (amm.baseSpread : ℚ) / 2
  let targetMarkSpreadPct := targetMarkSpreadPctOf amm oraclePriceData
  if (direction = PositionDirection.long ∧ targetMarkSpreadPct < 0)
      ∨ (direction = PositionDirection.short ∧ 0 < targetMarkSpreadPct) then
    max spread (|targetMarkSpreadPct| : ℚ)
  else spread

/-- The inventory-skew scale factor of `calculateSpread` as applied to a given
half-spread: `effectiveLeverage` is `(localPnl - netPnl) /
(totalFeeMinusDistributions + 1)` when the fee pool is positive and the maximum
(5) otherwise; the scale is `min(5, 1 + effectiveLeverage)`, replaced by
`max(1.05, maxTargetSpread / spread)` when `scale * spread` exceeds
`maxTargetSpread`. -/
def spreadInventoryScale (amm : AMM) (spread : ℚ) : ℚ :=
  let netCostBasis := netCostBasisOf amm
  let netBaseAssetValue := netBaseAssetValueOf amm
  let localBaseAssetValue := localBaseAssetValueOf amm (markPriceOf amm)
  let netPnl := netBaseAssetValue - netCostBasis
  let localPnl := localBaseAssetValue - netCostBasis
  let effectiveLeverage : ℚ :=
    if 0 < amm.totalFeeMinusDistributions then
      ((localPnl - netPnl : ℤ) : ℚ) / ((amm.totalFeeMinusDistributions : ℚ) + 1)
    else MAX_INVENTORY_SKEW
  let spreadScale := min MAX_INVENTORY_SKEW (1 + effectiveLeverage)
  if maxTargetSpread < spreadScale * spread then max (21 / 20) (maxTargetSpread / spread)
  else spreadScale

/-- Embedding of `calculateSpread`: returns `baseSpread / 2` immediately when
`baseSpread = 0` or `curveUpdateIntensity = 0`; otherwise applies the oracle
retreat (`preSkewSpread`) and then, when the net inventory sign matches the
quoted direction or `totalFeeMinusDistributions = 0`, multiplies by the
inventory-skew scale. -/
def calculateSpread (amm : AMM) (direction : PositionDirection)
    (oraclePriceData : Option OraclePriceData) : ℚ :=
  if amm.baseSpread = 0 ∨ amm.curveUpdateIntensity = 0 then (amm.baseSpread : ℚ) / 2
  else
    let spread := preSkewSpread amm direction oraclePriceData
    if (0 < amm.netBaseAssetAmount ∧ direction = PositionDirection.long)
        ∨ (amm.netBaseAssetAmount < 0 ∧ direction = PositionDirection.short)
        ∨ amm.totalFeeMinusDistributions = 0 then
      spread * spreadInventoryScale amm spread
    else spread

/-- The oracle-retreat stage of `calculateSpreadBN` (its first if/else-if):
both sides start at `baseSpread / 2`; a positive oracle/mark spread widens the
short side to `max(shortSpread, |pct| + conf)`, a negative one widens the long
side symmetrically. -/
def oracleRetreatBN (baseSpread lastOracleMarkSpreadPct lastOracleConfPct : ℤ) : ℚ × ℚ :=
  let longSpread : ℚ := (baseSpread : ℚ) / 2
  let shortSpread : ℚ := (baseSpread : ℚ) / 2
  if 0 < lastOracleMarkSpreadPct then
    (longSpread,
      max shortSpread ((|lastOracleMarkSpreadPct| : ℚ) + (lastOracleConfPct : ℚ)))
  else if lastOracleMarkSpreadPct < 0 then
    (max longSpread ((|lastOracleMarkSpreadPct| : ℚ) + (lastOracleConfPct : ℚ)),
      shortSpread)
  else (longSpread, shortSpread)

/-- Embedding of `calculateSpreadBN`: the oracle-retreat stage
(`oracleRetreatBN`) followed by the inventory-skew stage.  With a positive fee
pool the skew scale (with the extra `1 / QUOTE_PRECISION` term of this variant)
is applied, capped toward `maxTargetSpread`, to the side of the net inventory;
with a non-positive fee pool both sides are multiplied by the maximum skew. -/
def calculateSpreadBN (baseSpread lastOracleMarkSpreadPct lastOracleConfPct : ℤ)
    (quoteAssetReserve terminalQuoteAssetReserve pegMultiplier netBaseAssetAmount
      markPrice totalFeeMinusDistributions : ℤ) : ℚ × ℚ :=
  let retreat := oracleRetreatBN baseSpread lastOracleMarkSpreadPct lastOracleConfPct
  let longSpread := retreat.1
  let shortSpread := retreat.2
  let netBaseAssetValue :=
    Int.tdiv ((quoteAssetReserve - terminalQuoteAssetReserve) * pegMultiplier)
      AMM_TIMES_PEG_TO_QUOTE_PRECISION_RATIO
  let localBaseAssetValue :=
    Int.tdiv (netBaseAssetAmount * markPrice)
      ( AMM_TO_QUOTE_PRECISION_RATIO * MARK_PRICE_PRECISION)
  if 0 < totalFeeMinusDistributions then
    let effectiveLeverage : ℚ :=
      ((localBaseAssetValue - netBaseAssetValue : ℤ) : ℚ) /
          ((totalFeeMinusDistributions : ℚ) + 1)
        + 1 / (QUOTE_PRECISION : ℚ)
    let spreadScale := min MAX_INVENTORY_SKEW (1 + effectiveLeverage)
    if 0 < netBaseAssetAmount then
      let spreadScale2 :=
        if maxTargetSpread < spreadScale * longSpread then
          max (21 / 20) (maxTargetSpread / longSpread)
        else spreadScale
      (longSpread * spreadScale2, shortSpread)
    else
      let spreadScale2 :=
        if maxTargetSpread < spreadScale * shortSpread then
          max (21 / 20) (maxTargetSpread / shortSpread)
        else spreadScale
      (longSpread, shortSpread * spreadScale2)
  else (longSpread * MAX_INVENTORY_SKEW, shortSpread * MAX_INVENTORY_SKEW)

/-- Embedding of `calculateSpreadReserves`.  A zero spread returns the
canonical reserves.  Otherwise the source computes
`quoteAssetReserve / (BID_ASK_SPREAD_PRECISION / new BN(spread / 2))`
(`new BN` truncating the number toward zero), shifts the quote reserve by the
delta in the quoted direction and reconstructs the base reserve from the
invariant; the bn.js divisions throw on a zero divisor, modelled by `none`. -/
def calculateSpreadReserves (amm : AMM) (direction : PositionDirection)
    (oraclePriceData : Option OraclePriceData) : Option (ℤ × ℤ) :=
  let spread := calculateSpread amm direction oraclePriceData
  if spread = 0 then some (amm.baseAssetReserve, amm.quoteAssetReserve)
  else
    let halfSpreadBN := truncBN (spread / 2)
    if halfSpreadBN = 0 then none
    else
      let spreadDivisor := Int.tdiv BID_ASK_SPREAD_PRECISION halfSpreadBN
      if spreadDivisor = 0 then none
      else
        let quoteAsserReserveDelta := Int.tdiv amm.quoteAssetReserve spreadDivisor
        let quoteAssetReserve :=
          match direction with
          | PositionDirection.long => amm.quoteAssetReserve + quoteAsserReserveDelta
          | PositionDirection.short => amm.quoteAssetReserve - quoteAsserReserveDelta
        if quoteAssetReserve = 0 then none
        else some (Int.tdiv (amm.sqrtK * amm.sqrtK) quoteAssetReserve, quoteAssetReserve)

/-- Modelled from the spec: `squareRootBN` is imported by the source from the
sdk root and is not part of the provided source files; the spec (§4.8) defines
it as the integer floor square root, `floor(sqrt(x))`.  A negative radicand has
no defined behaviour and is modelled as failure. -/
def squareRootBN (x : ℤ) : Option ℤ :=
  if x < 0 then none else some (Nat.sqrt x.toNat : ℤ)

/-- Embedding of `calculateMaxBaseAssetAmountToTrade`: solves the base reserve
at the limit price from the invariant, takes its floor square root, compares
with the direction's projected pre-trade base reserve, and returns the
difference with the resulting direction (SHORT when the solved reserve is
larger, LONG when smaller, and `(0, LONG)` on exact equality). -/
def calculateMaxBaseAssetAmountToTrade (amm : AMM) (limit_price : ℤ)
    (direction : PositionDirection) (oraclePriceData : Option OraclePriceData) :
    Option (ℤ × PositionDirection) :=
  let invariant := amm.sqrtK * amm.sqrtK
  if limit_price = 0 then none
  else
    let newBaseAssetReserveSquared :=
      Int.tdiv (Int.tdiv (invariant * MARK_PRICE_PRECISION * amm.pegMultiplier) limit_price)
        PEG_PRECISION
    match squareRootBN newBaseAssetReserveSquared with
    | none => none
    | some newBaseAssetReserve =>
      match calculateSpreadReserves amm direction oraclePriceData with
      | none => none
      | some reserves =>
        let baseAssetReserveBefore := reserves.1
        if baseAssetReserveBefore < newBaseAssetReserve then
          some (newBaseAssetReserve - baseAssetReserveBefore, PositionDirection.short)
        else if newBaseAssetReserve < baseAssetReserveBefore then
          some (baseAssetReserveBefore - newBaseAssetReserve, PositionDirection.long)
        else some (0, PositionDirection.long)

/-- A well-formed baseline state used by the concrete witnesses: unit reserves
at amm precision, peg 1000 (price 1 at peg precision), no inventory, and an
enabled curve. -/
def ammDefault : AMM where
  baseAssetReserve := 10 ^ 13
  quoteAssetReserve := 10 ^ 13
  sqrtK := 10 ^ 13
  pegMultiplier := 1000
  netBaseAssetAmount := 0
  terminalQuoteAssetReserve := 10 ^ 13
  totalExchangeFee := 0
  totalFeeMinusDistributions := 0
  baseSpread := 1000
  curveUpdateIntensity := 1
  quoteAssetAmountLong := 0
  quoteAssetAmountShort := 0

/-- Bn.js truncated division agrees with floor division when both operands are
non-negative. -/
theorem tdiv_eq_fdiv_of_nonneg {a b : ℤ} (ha : 0 ≤ a) (hb : 0 ≤ b) :
    Int.tdiv a b = Int.fdiv a b := by
  rw [Int.tdiv_eq_ediv ha hb, Int.fdiv_eq_ediv _ hb]

/-- Composition of Euclidean divisions for non-negative numerator and positive
divisors. -/
theorem ediv_ediv_eq_ediv_mul {a b c : ℤ} (ha : 0 ≤ a) (hb : 0 < b) (hc : 0 < c) :
    a / b / c = a / (b * c) := by
  lift a to ℕ using ha
  lift b to ℕ using hb.le
  lift c to ℕ using hc.le
  norm_cast
  exact Nat.div_div_eq_div_mul _ _ _

/-- Two successive bn.js truncated divisions by positive divisors of a
non-negative numerator equal a single floor division by the product. -/
theorem tdiv_tdiv_eq_fdiv_mul {a b c : ℤ} (ha : 0 ≤ a) (hb : 0 < b) (hc : 0 < c) :
    Int.tdiv (Int.tdiv a b) c = Int.fdiv a (b * c) := by
  rw [Int.tdiv_eq_ediv ha hb.le, Int.tdiv_eq_ediv (Int.ediv_nonneg ha hb.le) hc.le,
    ediv_ediv_eq_ediv_mul ha hb hc, Int.fdiv_eq_ediv _ (mul_nonneg hb.le hc.le)]

/-- C2 (counterexample): the claim says a negative base reserve yields price 0,
but the source only special-cases `|base| ≤ 0`, i.e. base = 0; at base reserve
-1, quote reserve 1 and peg 1000 the returned price is nonzero. -/
theorem calculatePrice_negative_base_counterexample : calculatePrice (-1) 1 1000 ≠ 0 := by
  decide

/-- C2 (amended): for non-negative quote reserve and peg and a positive base
reserve, `calculatePrice` equals the floor of
`quote * MARK_PRICE_PRECISION * peg / (PEG_PRECISION * base)`, and a zero base
reserve returns 0 (a negative base reserve is not special-cased). -/
theorem calculatePrice_formula (quoteReserve peg base : ℤ) (hq : 0 ≤ quoteReserve)
    (hp : 0 ≤ peg) (hb : 0 < base) :
    calculatePrice base quoteReserve peg =
      Int.fdiv (quoteReserve * MARK_PRICE_PRECISION * peg) (PEG_PRECISION * base) ∧
    calculatePrice 0 quoteReserve peg = 0 := by
  constructor
  · rw [calculatePrice, if_neg (by simpa using abs_pos.mpr hb.ne')]
    exact tdiv_tdiv_eq_fdiv_mul
      (mul_nonneg (mul_nonneg hq (by norm_num [MARK_PRICE_PRECISION])) hp)
      (by norm_num [PEG_PRECISION]) hb
  · simp [calculatePrice]

/-- C2 (witness): the amended statement evaluated at quote reserve 1, peg 1000
and base reserve 2. -/
theorem calculatePrice_formula_witness :
    calculatePrice 2 1 1000 = Int.fdiv (1 * MARK_PRICE_PRECISION * 1000) (PEG_PRECISION * 2) ∧
    calculatePrice 0 1 1000 = 0 :=
  calculatePrice_formula 1 1000 2 (by decide) (by decide) (by decide)

/-- Division bounds for one bn.js truncated division with non-negative
numerator and positive divisor. -/
theorem mul_tdiv_bounds {i n : ℤ} (hi : 0 < i) (hn : 0 ≤ n) :
    i * Int.tdiv n i ≤ n ∧ n < i * (Int.tdiv n i + 1) := by
  rw [Int.tdiv_eq_ediv hn hi.le]
  refine ⟨?_, ?_⟩
  · rw [mul_comm]
    exact Int.ediv_mul_le n hi.ne'
  · rw [mul_comm]
    exact Int.lt_ediv_add_one_mul_self n hi

/-- C6 (counterexample): the claim quantifies over every invariant, but for a
negative invariant the floor-division bound fails: with input reserve 1, swap
amount 1, direction ADD and invariant -5 the new input reserve is positive yet
`newInput * newOutput ≤ invariant` is false. -/
theorem calculateSwapOutput_negative_invariant_counterexample :
    0 ≤ (1 : ℤ) ∧ 0 < (calculateSwapOutput 1 1 SwapDirection.add (-5)).1 ∧
      ¬((calculateSwapOutput 1 1 SwapDirection.add (-5)).1 *
          (calculateSwapOutput 1 1 SwapDirection.add (-5)).2 ≤ (-5 : ℤ)) := by
  decide

/-- C6 (amended): for every input reserve, every NON-NEGATIVE invariant, every
direction and every swap amount ≥ 0 such that the new input reserve is
positive, `calculateSwapOutput` satisfies `newInput * newOutput ≤ invariant`
and `newInput * (newOutput + 1) > invariant`. -/
theorem calculateSwapOutput_invariant_bounds (inputReserve swapAmount inv : ℤ)
    (d : SwapDirection) (hamt : 0 ≤ swapAmount) (hinv : 0 ≤ inv)
    (hpos : 0 < (calculateSwapOutput inputReserve swapAmount d inv).1) :
    (calculateSwapOutput inputReserve swapAmount d inv).1 *
        (calculateSwapOutput inputReserve swapAmount d inv).2 ≤ inv ∧
      inv < (calculateSwapOutput inputReserve swapAmount d inv).1 *
        ((calculateSwapOutput inputReserve swapAmount d inv).2 + 1) := by
  cases d <;>
    · simp only [calculateSwapOutput] at hpos ⊢
      exact mul_tdiv_bounds hpos hinv

/-- C6 (witness): the amended statement evaluated at input reserve 3, swap
amount 2, direction ADD and invariant 10. -/
theorem calculateSwapOutput_invariant_bounds_witness :
    (calculateSwapOutput 3 2 SwapDirection.add 10).1 *
        (calculateSwapOutput 3 2 SwapDirection.add 10).2 ≤ 10 ∧
      (10 : ℤ) < (calculateSwapOutput 3 2 SwapDirection.add 10).1 *
        ((calculateSwapOutput 3 2 SwapDirection.add 10).2 + 1) :=
  calculateSwapOutput_invariant_bounds 3 2 10 SwapDirection.add (by decide) (by decide)
    (by decide)

/-- C7 (counterexample): the claim says the ADD-then-REMOVE round trip does NOT
return to the starting reserves with exact equality; but with input reserve 3,
invariant 10 (so starting reserves (3, 3)) and swap amount 2, the intermediate
input reserve is positive and the round trip returns exactly (3, 3). -/
theorem swapRoundTrip_exact_counterexample :
    swapRoundTrip 3 2 10 = (3, 3) ∧ Int.tdiv 10 3 = 3 ∧
      0 < (calculateSwapOutput 3 2 SwapDirection.add 10).1 := by
  decide

/-- C7 (amended): the ADD-then-REMOVE round trip of the same amount is exact:
the input reserve returns to `inputReserve` and the output reserve to
`invariant / inputReserve` (bn.js truncated division), the same value a fresh
quote at the starting input reserve produces — the one-unit floor-division
slack concerns the product against the invariant, not the round trip. -/
theorem swapRoundTrip_exact (inputReserve swapAmount inv : ℤ) (hamt : 0 ≤ swapAmount)
    (hin : 0 < inputReserve) (hmid : 0 < inputReserve + swapAmount) :
    swapRoundTrip inputReserve swapAmount inv = (inputReserve, Int.tdiv inv inputReserve) := by
  simp [swapRoundTrip, calculateSwapOutput]

/-- C7 (witness): the amended statement evaluated at input reserve 4, swap
amount 2 and invariant 12. -/
theorem swapRoundTrip_exact_witness :
    swapRoundTrip 4 2 12 = (4, Int.tdiv 12 4) :=
  swapRoundTrip_exact 4 2 12 (by decide) (by decide) (by decide)

/-- C4: whenever the repeg cost of the rounded candidate peg fits in the fee
budget `max(0, totalFeeMinusDistributions - totalExchangeFee / 2)`,
`calculateNewAmm` performs no depth adjustment: it returns exactly that cost,
k ratio 1/1 and the candidate peg, for every choice of the opaque repeg
primitives. -/
theorem calculateNewAmm_within_budget (calculateRepegCost : AMM → ℤ → ℤ)
    (calculateAdjustKCost : AMM → ℤ → ℤ → ℤ) (calculateBudgetedPeg : AMM → ℤ → ℤ → ℤ)
    (amm : AMM) (oraclePriceData : OraclePriceData)
    (h : calculateRepegCost amm (targetPegOf amm oraclePriceData.price) ≤ repegBudgetOf amm) :
    calculateNewAmm calculateRepegCost calculateAdjustKCost calculateBudgetedPeg amm
        oraclePriceData =
      some (calculateRepegCost amm (targetPegOf amm oraclePriceData.price), 1, 1,
        targetPegOf amm oraclePriceData.price) := by
  simp only [calculateNewAmm]
  rw [if_neg (not_lt.mpr h)]

/-- C4 (witness): the theorem applied to the zero cost primitives and the
baseline state at oracle price 1 (in price precision), whose candidate peg is
1000. -/
theorem calculateNewAmm_within_budget_witness :
    calculateNewAmm (fun _ _ => 0) (fun _ _ _ => 0) (fun _ _ _ => 0) ammDefault
        { price := 10 ^ 10 } =
      some ((fun (_ : AMM) (_ : ℤ) => (0 : ℤ)) ammDefault
          (targetPegOf ammDefault (10 ^ 10 : ℤ)), 1, 1,
        targetPegOf ammDefault ((10 : ℤ) ^ 10)) :=
  calculateNewAmm_within_budget (fun _ _ => 0) (fun _ _ _ => 0) (fun _ _ _ => 0) ammDefault
    { price := 10 ^ 10 } (by decide)

/-- C5: for every state with a nonzero curve-update intensity and every oracle
price, a successful `calculateUpdatedAMM` (for any opaque repeg primitives)
returns a state whose quote reserve is exactly `sqrtK * sqrtK / base` under
floor division, the base reserve being positive. -/
theorem calculateUpdatedAMM_invariant_reconstruction (calculateRepegCost : AMM → ℤ → ℤ)
    (calculateAdjustKCost : AMM → ℤ → ℤ → ℤ) (calculateBudgetedPeg : AMM → ℤ → ℤ → ℤ)
    (amm : AMM) (oraclePriceData : OraclePriceData) (hc : amm.curveUpdateIntensity ≠ 0)
    (newAmm : AMM)
    (h : calculateUpdatedAMM calculateRepegCost calculateAdjustKCost calculateBudgetedPeg
        amm oraclePriceData = some newAmm)
    (hb : 0 < newAmm.baseAssetReserve) :
    newAmm.quoteAssetReserve =
      Int.fdiv (newAmm.sqrtK * newAmm.sqrtK) newAmm.baseAssetReserve := by
  simp only [calculateUpdatedAMM] at h
  rw [if_neg hc] at h
  split at h
  · exact absurd h (by simp)
  · split at h
    · exact absurd h (by simp)
    · obtain rfl := (Option.some.injEq _ _).mp h
      dsimp only at hb ⊢
      exact tdiv_eq_fdiv_of_nonneg (mul_self_nonneg _) hb.le

/-- A small well-formed state (reserves 100, peg 1000) used as the C5
witness input; `calculateUpdatedAMM` with zero cost primitives maps it to
itself. -/
def ammSmall : AMM where
  baseAssetReserve := 100
  quoteAssetReserve := 100
  sqrtK := 100
  pegMultiplier := 1000
  netBaseAssetAmount := 0
  terminalQuoteAssetReserve := 100
  totalExchangeFee := 0
  totalFeeMinusDistributions := 0
  baseSpread := 1000
  curveUpdateIntensity := 1
  quoteAssetAmountLong := 0
  quoteAssetAmountShort := 0

/-- C5 (witness): the theorem applied to the zero cost primitives and
`ammSmall`, which `calculateUpdatedAMM` maps to itself. -/
theorem calculateUpdatedAMM_invariant_reconstruction_witness :
    ammSmall.quoteAssetReserve =
      Int.fdiv (ammSmall.sqrtK * ammSmall.sqrtK) ammSmall.baseAssetReserve :=
  calculateUpdatedAMM_invariant_reconstruction (fun _ _ => 0) (fun _ _ _ => 0)
    (fun _ _ _ => 0) ammSmall { price := 10 ^ 10 } (by decide) ammSmall (by decide)
    (by decide)

/-- C10: the oracle-retreat stage of `calculateSpreadBN` widens exactly one
side and includes the confidence term: a positive oracle/mark spread raises
only the short spread to `max(baseSpread/2, |pct| + conf)`, a negative one
raises only the long spread, and a zero spread leaves both at `baseSpread/2`. -/
theorem oracleRetreatBN_one_sided (baseSpread lastOracleMarkSpreadPct lastOracleConfPct : ℤ) :
    oracleRetreatBN baseSpread lastOracleMarkSpreadPct lastOracleConfPct =
      ((if lastOracleMarkSpreadPct < 0 then
          max ((baseSpread : ℚ) / 2)
            ((|lastOracleMarkSpreadPct| : ℚ) + (lastOracleConfPct : ℚ))
        else (baseSpread : ℚ) / 2),
       (if 0 < lastOracleMarkSpreadPct then
          max ((baseSpread : ℚ) / 2)
            ((|lastOracleMarkSpreadPct| : ℚ) + (lastOracleConfPct : ℚ))
        else (baseSpread : ℚ) / 2)) := by
  rcases lt_trichotomy lastOracleMarkSpreadPct 0 with h | h | h
  · simp [oracleRetreatBN, h, asymm h]
  · simp [oracleRetreatBN, h]
  · simp [oracleRetreatBN, h, asymm h]

/-- C8: with a nonzero limit price, whenever the floor square root of the
solved reserve and the projected pre-trade reserves are defined,
`calculateMaxBaseAssetAmountToTrade` returns the difference between the solved
base reserve `n` and the direction's pre-trade base reserve `b`: `(n - b,
SHORT)` for `n > b`, `(b - n, LONG)` for `n < b` and `(0, LONG)` for `n = b`. -/
theorem calculateMaxBaseAssetAmountToTrade_branches (amm : AMM) (limit_price : ℤ)
    (direction : PositionDirection) (oraclePriceData : Option OraclePriceData)
    (hl : limit_price ≠ 0) (n : ℤ)
    (hn : squareRootBN
        (Int.tdiv
          (Int.tdiv (amm.sqrtK * amm.sqrtK * MARK_PRICE_PRECISION * amm.pegMultiplier)
            limit_price)
          PEG_PRECISION) = some n)
    (reserves : ℤ × ℤ)
    (hres : calculateSpreadReserves amm direction oraclePriceData = some reserves) :
    calculateMaxBaseAssetAmountToTrade amm limit_price direction oraclePriceData =
      (if reserves.1 < n then some (n - reserves.1, PositionDirection.short)
        else if n < reserves.1 then some (reserves.1 - n, PositionDirection.long)
        else some (0, PositionDirection.long)) := by
  simp only [calculateMaxBaseAssetAmountToTrade]
  rw [if_neg hl, hn, hres]

/-- A state with zero base spread (so the projected reserves are the canonical
ones) used as the C8 witness input. -/
def ammTrade : AMM where
  baseAssetReserve := 900
  quoteAssetReserve := 1111
  sqrtK := 1000
  pegMultiplier := 1000
  netBaseAssetAmount := 0
  terminalQuoteAssetReserve := 1111
  totalExchangeFee := 0
  totalFeeMinusDistributions := 0
  baseSpread := 0
  curveUpdateIntensity := 1
  quoteAssetAmountLong := 0
  quoteAssetAmountShort := 0

/-- C8 (witness): at `ammTrade` with limit price 1 (price precision) the
solved reserve is 1000, the pre-trade base reserve is 900, and the result is
(100, SHORT). -/
theorem calculateMaxBaseAssetAmountToTrade_branches_witness :
    calculateMaxBaseAssetAmountToTrade ammTrade (10 ^ 10) PositionDirection.long none =
      (if ((900 : ℤ), (1111 : ℤ)).1 < (1000 : ℤ)
        then some ((1000 : ℤ) - ((900 : ℤ), (1111 : ℤ)).1, PositionDirection.short)
        else if (1000 : ℤ) < ((900 : ℤ), (1111 : ℤ)).1
          then some (((900 : ℤ), (1111 : ℤ)).1 - 1000, PositionDirection.long)
          else some (0, PositionDirection.long)) :=
  calculateMaxBaseAssetAmountToTrade_branches ammTrade (10 ^ 10) PositionDirection.long none
    (by decide) 1000
    (by
      rw [show Int.tdiv
          (Int.tdiv (ammTrade.sqrtK * ammTrade.sqrtK * MARK_PRICE_PRECISION *
            ammTrade.pegMultiplier) (10 ^ 10)) PEG_PRECISION = (1000000 : ℤ) from by decide]
      rw [squareRootBN, if_neg (by decide)]
      rw [show Int.toNat (1000000 : ℤ) = 1000 ^ 2 from by decide]
      rw [Nat.sqrt_eq']
      norm_num)
    (900, 1111)
    (by norm_num [calculateSpreadReserves, calculateSpread, ammTrade])

/-- A state with a positive fee pool used by the C9 counterexample. -/
def ammFee : AMM := { ammDefault with
  totalFeeMinusDistributions := 5 }

/-- C9 (counterexample): a PRESENT oracle price of zero is not replaced by the
mark price — a BN zero is truthy in the source's `oraclePriceData?.price ||
markPrice` — so the short side retreats by the full spread precision: the
returned half-spread is 1000000, while with an absent oracle it is the plain
`baseSpread / 2 = 500`. -/
theorem calculateSpread_zero_oracle_counterexample :
    calculateSpread ammFee PositionDirection.short (some { price := 0 }) = 1000000 ∧
      calculateSpread ammFee PositionDirection.short none = 500 := by
  constructor
  · have h2 : targetMarkSpreadPctOf ammFee (some { price := 0 }) = 1000000 := by decide
    simp only [calculateSpread, preSkewSpread, h2]
    norm_num [ammFee, ammDefault, max_def]
  · have h3 : targetMarkSpreadPctOf ammFee none = 0 := by decide
    simp only [calculateSpread, preSkewSpread, h3]
    norm_num [ammFee, ammDefault]

/-- C9 (amended): when the oracle price data is ABSENT, the mark price itself
is the target price, the oracle/mark spread percentage is zero, and the result
equals the spread computed with an oracle price equal to the mark price (base
spread and inventory skew only); a present zero price is instead used as-is. -/
theorem calculateSpread_absent_oracle (amm : AMM) (direction : PositionDirection)
    (hm : 0 < markPriceOf amm) :
    targetMarkSpreadPctOf amm none = 0 ∧
      calculateSpread amm direction none =
        calculateSpread amm direction (some { price := markPriceOf amm }) := by
  have hpct : targetMarkSpreadPctOf amm (some { price := markPriceOf amm }) =
      targetMarkSpreadPctOf amm none := by
    simp [targetMarkSpreadPctOf]
  refine ⟨by simp [targetMarkSpreadPctOf], ?_⟩
  simp only [calculateSpread, preSkewSpread, hpct]

/-- C9 (witness): the amended statement evaluated at the baseline state
(mark price `10 ^ 10`) quoting LONG. -/
theorem calculateSpread_absent_oracle_witness :
    targetMarkSpreadPctOf ammDefault none = 0 ∧
      calculateSpread ammDefault PositionDirection.long none =
        calculateSpread ammDefault PositionDirection.long
          (some { price := markPriceOf ammDefault }) :=
  calculateSpread_absent_oracle ammDefault PositionDirection.long (by decide)

/-- The capped scale step of the inventory-skew stage never yields a factor
below 1 when the incoming scale is at least 1: the cap replaces the scale by
`max(1.05, maxTargetSpread / spread)`, which is at least 1.05. -/
theorem one_le_capped (mt sp sc : ℚ) (hsc : 1 ≤ sc) :
    1 ≤ if mt < sc * sp then max (21 / 20) (mt / sp) else sc := by
  split
  · exact le_trans (by norm_num) (le_max_left _ _)
  · exact hsc

/-- When the local base-asset value is at least the net base-asset value (a
non-negative effective leverage), the inventory-skew scale factor is at least
1, so the skew stage never shrinks the spread. -/
theorem one_le_spreadInventoryScale (amm : AMM) (spread : ℚ)
    (hlev : netBaseAssetValueOf amm ≤ localBaseAssetValueOf amm (markPriceOf amm)) :
    1 ≤ spreadInventoryScale amm spread := by
  simp only [spreadInventoryScale]
  set L := localBaseAssetValueOf amm (markPriceOf amm) with hL
  set N := netBaseAssetValueOf amm with hN
  set C := netCostBasisOf amm with hC
  have hsc : 1 ≤ min MAX_INVENTORY_SKEW
      (1 + (if 0 < amm.totalFeeMinusDistributions then
        ((L - C - (N - C) : ℤ) : ℚ) / ((amm.totalFeeMinusDistributions : ℚ) + 1)
      else MAX_INVENTORY_SKEW)) := by
    refine le_min (by norm_num [MAX_INVENTORY_SKEW]) ?_
    rw [le_add_iff_nonneg_right]
    split
    · next htf =>
      apply div_nonneg
      · exact_mod_cast (by omega : (0 : ℤ) ≤ L - C - (N - C))
      · have h1 : (0 : ℚ) < (amm.totalFeeMinusDistributions : ℚ) := by exact_mod_cast htf
        linarith
    · norm_num [MAX_INVENTORY_SKEW]
  exact one_le_capped _ _ _ hsc

/-- C1 (amended): with a nonzero base spread and curve-update intensity, when
quoting LONG with a negative oracle/mark spread percentage (or SHORT with a
positive one), the returned half-spread is at least `|spreadPct|` PROVIDED the
inventory-skew stage does not shrink the spread, which holds whenever the
local base-asset value is at least the net base-asset value (non-negative
effective leverage); the cap itself never reduces the oracle retreat, but a
negative effective leverage can (see the counterexample). -/
theorem calculateSpread_retreat_lower_bound (amm : AMM) (direction : PositionDirection)
    (oraclePriceData : Option OraclePriceData) (hb : amm.baseSpread ≠ 0)
    (hc : amm.curveUpdateIntensity ≠ 0)
    (hdir : (direction = PositionDirection.long ∧ targetMarkSpreadPctOf amm oraclePriceData < 0)
      ∨ (direction = PositionDirection.short ∧ 0 < targetMarkSpreadPctOf amm oraclePriceData))
    (hlev : netBaseAssetValueOf amm ≤ localBaseAssetValueOf amm (markPriceOf amm)) :
    |(targetMarkSpreadPctOf amm oraclePriceData : ℚ)| ≤
      calculateSpread amm direction oraclePriceData := by
  have hpre : |(targetMarkSpreadPctOf amm oraclePriceData : ℚ)| ≤
      preSkewSpread amm direction oraclePriceData := by
    simp only [preSkewSpread]
    rw [if_pos hdir]
    exact le_max_right _ _
  have hpre0 : 0 ≤ preSkewSpread amm direction oraclePriceData :=
    le_trans (abs_nonneg _) hpre
  simp only [calculateSpread]
  rw [if_neg (not_or.mpr ⟨hb, hc⟩)]
  split
  · refine hpre.trans ?_
    calc preSkewSpread amm direction oraclePriceData
        = preSkewSpread amm direction oraclePriceData * 1 := (mul_one _).symm
      _ ≤ preSkewSpread amm direction oraclePriceData *
            spreadInventoryScale amm (preSkewSpread amm direction oraclePriceData) :=
          mul_le_mul_of_nonneg_left (one_le_spreadInventoryScale amm _ hlev) hpre0
  · exact hpre

/-- A state with positive net inventory, a large unrealized loss relative to
the fee pool (effective leverage -9.9) and a positive fee pool, used by the C1
counterexample. -/
def ammC1 : AMM := { ammDefault with
  netBaseAssetAmount := 10 ^ 7
  terminalQuoteAssetReserve := 10 ^ 13 - 10 ^ 9
  totalFeeMinusDistributions := 9 }

/-- C1 (counterexample): quoting LONG with oracle above mark (spread
percentage -10000, i.e. -1%), the inventory-skew stage multiplies the
oracle-retreat spread 10000 by the NEGATIVE uncapped scale
`min(5, 1 + (1 - 100)/(9 + 1)) = -8.9`, returning -89000 < |spreadPct|: the
oracle-retreat floor is not preserved by the skew scaling. -/
theorem calculateSpread_retreat_reduced_counterexample :
    targetMarkSpreadPctOf ammC1 (some { price := 10100000000 }) = -10000 ∧
      calculateSpread ammC1 PositionDirection.long (some { price := 10100000000 }) = -89000 ∧
      calculateSpread ammC1 PositionDirection.long (some { price := 10100000000 }) <
        |(targetMarkSpreadPctOf ammC1 (some { price := 10100000000 }) : ℚ)| := by
  have h2 : targetMarkSpreadPctOf ammC1 (some { price := 10100000000 }) = -10000 := by decide
  have h3 : localBaseAssetValueOf ammC1 (markPriceOf ammC1) = 1 := by decide
  have h4 : netBaseAssetValueOf ammC1 = 100 := by decide
  have h5 : calculateSpread ammC1 PositionDirection.long (some { price := 10100000000 }) =
      -89000 := by
    simp only [calculateSpread, preSkewSpread, spreadInventoryScale, h2, h3, h4, netCostBasisOf]
    norm_num [ammC1, ammDefault, max_def, min_def, MAX_INVENTORY_SKEW, maxTargetSpread,
      BID_ASK_SPREAD_PRECISION]
  refine ⟨h2, h5, ?_⟩
  rw [h2, h5]
  norm_num

/-- C1 (witness): the amended statement at the baseline state quoting LONG
with the oracle 1% above the mark price. -/
theorem calculateSpread_retreat_lower_bound_witness :
    |(targetMarkSpreadPctOf ammDefault (some { price := 10100000000 }) : ℚ)| ≤
      calculateSpread ammDefault PositionDirection.long (some { price := 10100000000 }) :=
  calculateSpread_retreat_lower_bound ammDefault PositionDirection.long
    (some { price := 10100000000 }) (by decide) (by decide)
    (Or.inl ⟨rfl, by decide⟩) (by decide)

/-- With a zero fee pool and `5 * spread` within the 2% target, the
inventory-skew scale of `calculateSpread` is exactly the maximum skew 5. -/
theorem spreadInventoryScale_zero_fee (amm : AMM) (spread : ℚ)
    (htfmd : amm.totalFeeMinusDistributions = 0) (hcap : 5 * spread ≤ maxTargetSpread) :
    spreadInventoryScale amm spread = 5 := by
  simp only [spreadInventoryScale, htfmd]
  rw [if_neg (lt_irrefl (0 : ℤ))]
  rw [show min MAX_INVENTORY_SKEW (1 + MAX_INVENTORY_SKEW) = (5 : ℚ) from by
    norm_num [MAX_INVENTORY_SKEW]]
  rw [if_neg (not_lt.mpr (by linarith))]

/-- With a zero fee pool, a nonzero base spread and curve intensity, and
`5 * preSkewSpread` within the 2% target, `calculateSpread` returns exactly
5 times its pre-skew value. -/
theorem calculateSpread_zero_fee_eq (amm : AMM) (direction : PositionDirection)
    (oraclePriceData : Option OraclePriceData)
    (htfmd : amm.totalFeeMinusDistributions = 0) (hb : amm.baseSpread ≠ 0)
    (hc : amm.curveUpdateIntensity ≠ 0)
    (hcap : 5 * preSkewSpread amm direction oraclePriceData ≤ maxTargetSpread) :
    calculateSpread amm direction oraclePriceData =
      5 * preSkewSpread amm direction oraclePriceData := by
  simp only [calculateSpread]
  rw [if_neg (not_or.mpr ⟨hb, hc⟩), if_pos (Or.inr (Or.inr htfmd)),
    spreadInventoryScale_zero_fee amm _ htfmd hcap, mul_comm]

/-- With a zero fee pool, `calculateSpreadBN` multiplies both retreat-stage
spreads by exactly the maximum skew 5, unconditionally. -/
theorem calculateSpreadBN_zero_fee (bs pct conf q tq peg nba mp : ℤ) :
    calculateSpreadBN bs pct conf q tq peg nba mp 0 =
      (5 * (oracleRetreatBN bs pct conf).1, 5 * (oracleRetreatBN bs pct conf).2) := by
  simp only [calculateSpreadBN, MAX_INVENTORY_SKEW]
  rw [if_neg (lt_irrefl (0 : ℤ))]
  simp [Prod.ext_iff, mul_comm]

/-- C3 (amended): with `totalFeeMinusDistributions = 0` (and nonzero base
spread, nonzero curve intensity, positive mark price), the long and short
half-spreads of `calculateSpread` are each exactly 5 times their pre-skew
value PROVIDED 5 times the pre-skew value does not exceed `maxTargetSpread`
(otherwise the 2% cap replaces the factor 5 — see the counterexample), and
`calculateSpreadBN` multiplies both sides by exactly 5 unconditionally. -/
theorem calculateSpread_zero_fee_max_skew (amm : AMM) (oraclePriceData : Option OraclePriceData)
    (htfmd : amm.totalFeeMinusDistributions = 0) (hb : amm.baseSpread ≠ 0)
    (hc : amm.curveUpdateIntensity ≠ 0) (hm : 0 < markPriceOf amm)
    (hlongCap : 5 * preSkewSpread amm PositionDirection.long oraclePriceData ≤ maxTargetSpread)
    (hshortCap :
      5 * preSkewSpread amm PositionDirection.short oraclePriceData ≤ maxTargetSpread) :
    calculateSpread amm PositionDirection.long oraclePriceData =
        5 * preSkewSpread amm PositionDirection.long oraclePriceData ∧
      calculateSpread amm PositionDirection.short oraclePriceData =
        5 * preSkewSpread amm PositionDirection.short oraclePriceData ∧
      ∀ pct conf : ℤ,
        calculateSpreadBN amm.baseSpread pct conf amm.quoteAssetReserve
            amm.terminalQuoteAssetReserve amm.pegMultiplier amm.netBaseAssetAmount
            (markPriceOf amm) amm.totalFeeMinusDistributions =
          (5 * (oracleRetreatBN amm.baseSpread pct conf).1,
            5 * (oracleRetreatBN amm.baseSpread pct conf).2) :=
  ⟨calculateSpread_zero_fee_eq amm PositionDirection.long oraclePriceData htfmd hb hc hlongCap,
    calculateSpread_zero_fee_eq amm PositionDirection.short oraclePriceData htfmd hb hc hshortCap,
    fun pct conf => by
      rw [htfmd]
      exact calculateSpreadBN_zero_fee amm.baseSpread pct conf amm.quoteAssetReserve
        amm.terminalQuoteAssetReserve amm.pegMultiplier amm.netBaseAssetAmount
        (markPriceOf amm)⟩

/-- A zero-fee state whose base spread is large enough (1%) for the 2% cap to
fire, used by the C3 counterexample. -/
def ammC3 : AMM := { ammDefault with
  baseSpread := 10000 }

/-- C3 (counterexample): with a zero fee pool and base spread 10000 the
pre-skew half-spread is 5000, but `calculateSpread` returns 20000 (the 2% cap
replaces the factor 5 by `max(1.05, 20000/5000) = 4`), not 5 × 5000 = 25000:
the 5× scaling of the claim is not exact in `calculateSpread`. -/
theorem calculateSpread_zero_fee_capped_counterexample :
    ammC3.totalFeeMinusDistributions = 0 ∧
      preSkewSpread ammC3 PositionDirection.long none = 5000 ∧
      calculateSpread ammC3 PositionDirection.long none = 20000 ∧
      calculateSpread ammC3 PositionDirection.long none ≠
        5 * preSkewSpread ammC3 PositionDirection.long none := by
  have h3 : targetMarkSpreadPctOf ammC3 none = 0 := by decide
  have hpre : preSkewSpread ammC3 PositionDirection.long none = 5000 := by
    simp only [preSkewSpread, h3]
    norm_num [ammC3, ammDefault]
  have h5 : calculateSpread ammC3 PositionDirection.long none = 20000 := by
    have h6 : localBaseAssetValueOf ammC3 (markPriceOf ammC3) = 0 := by decide
    have h7 : netBaseAssetValueOf ammC3 = 0 := by decide
    simp only [calculateSpread, preSkewSpread, spreadInventoryScale, h3, h6, h7, netCostBasisOf]
    norm_num [ammC3, ammDefault, max_def, min_def, MAX_INVENTORY_SKEW, maxTargetSpread,
      BID_ASK_SPREAD_PRECISION]
  refine ⟨by decide, hpre, h5, ?_⟩
  rw [h5, hpre]
  norm_num

/-- A zero-fee state with a small base spread (100), for which the skew stage
multiplies by exactly 5; used as the C3 witness input. -/
def amm100 : AMM := { ammDefault with
  baseSpread := 100 }

/-- C3 (witness): the amended statement at `amm100` with an absent oracle:
both directions return exactly 5 times the pre-skew half-spread of 50. -/
theorem calculateSpread_zero_fee_max_skew_witness :
    calculateSpread amm100 PositionDirection.long none =
        5 * preSkewSpread amm100 PositionDirection.long none ∧
      calculateSpread amm100 PositionDirection.short none =
        5 * preSkewSpread amm100 PositionDirection.short none := by
  have hpct : targetMarkSpreadPctOf amm100 none = 0 := by decide
  have hcapL : 5 * preSkewSpread amm100 PositionDirection.long none ≤ maxTargetSpread := by
    simp only [preSkewSpread, hpct]
    norm_num [amm100, ammDefault, maxTargetSpread, BID_ASK_SPREAD_PRECISION]
  have hcapS : 5 * preSkewSpread amm100 PositionDirection.short none ≤ maxTargetSpread := by
    simp only [preSkewSpread, hpct]
    norm_num [amm100, ammDefault, maxTargetSpread, BID_ASK_SPREAD_PRECISION]
  exact ⟨(calculateSpread_zero_fee_max_skew amm100 none (by decide) (by decide) (by decide)
      (by decide) hcapL hcapS).1,
    (calculateSpread_zero_fee_max_skew amm100 none (by decide) (by decide) (by decide)
      (by decide) hcapL hcapS).2.1⟩
